/-
Verification of the YouTrend duration-model data pipeline and prediction
engine against its specification.

The definitions below are a shallow embedding of the Python source:

* `src/YouTrend/duration_model/process_data.py`
  (`_parse_numeric_column`, `_clean_columns`,
  `_create_duration_model_columns`, `preprocessing_on_loading`);
* `duration_model/make_predictions.py`
  (`_normalize`, `survival_probability`,
  `predict_cumulative_hazard_at_single_time`,
  `predict_survival_function_at_single_time`, `plot_survival_probability`);
* `_kmf_model_per_day_and_video_cat`, which is absent from the sources
  (only its tests remain) and is therefore modelled from the spec.

Pandas timestamps are modelled as epoch seconds (`Int`), numeric values as
exact rationals (`Rat`), nullable integer columns as `List (Option Int)`,
and raising library calls as `Except String`.
-/
import Mathlib

set_option autoImplicit false

namespace YouTrend

/-! ## NumericFieldParser: `_parse_numeric_column`

The Python source normalizes a string column (`.str.replace(r'\s|,', '')`,
`.str.lower()`), extracts the first occurrence of the regular expression
`(\d+(?:\.\d+)?)([KkMm]?)` (pandas `Series.str.extract` searches anywhere in
the string), multiplies by the suffix factor, and casts the column to the
nullable `Int64` dtype.  The cast raises for non-integral floats
("cannot safely cast non-equivalent float64 to int64"); `NaN` becomes null.
-/

/-- One raw cell of an object-dtype pandas column: either a string or a
non-string scalar (mixed columns occur in the raw scrape files; every
non-string is mapped to `NaN` by the `.str` accessor, so only its presence
matters and it is modelled by its integer value). -/
inductive Cell where
  | str (s : String)
  | int (n : Int)
deriving Repr, DecidableEq

/-- Characters matched by the regex class `\s`. -/
def isSpaceChar (c : Char) : Bool :=
  c = ' ' || c = '\t' || c = '\n' || c = '\r' || c = '\x0b' || c = '\x0c'

/-- The normalization prefix of `_parse_numeric_column`:
`.str.replace(r'\s|,', '', regex=True).str.lower()`. -/
def normalizeNumericString (s : String) : String :=
  String.mk ((s.toList.filter (fun c => !(isSpaceChar c || c = ','))).map Char.toLower)

/-- Splits a character list into its maximal leading run of decimal digits
and the remainder (the greedy `\d+`). -/
def takeDigits : List Char → List Char × List Char
  | [] => ([], [])
  | c :: cs =>
    if c.isDigit then
      let p := takeDigits cs
      (c :: p.1, p.2)
    else ([], c :: cs)

/-- Matches the regex `(\d+(?:\.\d+)?)([KkMm]?)` at the head of the list.
Returns the integer digits, the fractional digits, the optional suffix
character, and the unconsumed remainder; `none` when the head is not a
digit. -/
def matchNumberAt (l : List Char) : Option (List Char × List Char × Option Char × List Char) :=
  match takeDigits l with
  | ([], _) => none
  | (ds, rest) =>
    let fp : List Char × List Char :=
      match rest with
      | '.' :: cs =>
        match takeDigits cs with
        | ([], _) => ([], rest)
        | (fs, r) => (fs, r)
      | _ => ([], rest)
    match fp.2 with
    | c :: cs =>
      if c = 'k' || c = 'K' || c = 'm' || c = 'M' then some (ds, fp.1, some c, cs)
      else some (ds, fp.1, none, fp.2)
    | [] => some (ds, fp.1, none, [])

/-- The `re.search` semantics of `Series.str.extract`: the pattern starts with
`\d`, so the leftmost match starts at the first digit of the string. -/
def searchNumber : List Char → Option (List Char × List Char × Option Char × List Char)
  | [] => none
  | c :: cs => if c.isDigit then matchNumberAt (c :: cs) else searchNumber cs

/-- Numeric value of a digit run. -/
def digitsToNat (ds : List Char) : Nat :=
  ds.foldl (fun acc c => 10 * acc + (c.toNat - '0'.toNat)) 0

/-- Value of the captured number `<ds>.<fs>` as an exact rational. -/
def numberValue (ds fs : List Char) : ℚ :=
  (digitsToNat ds : ℚ) + (digitsToNat fs : ℚ) / ((10 : ℚ) ^ fs.length)

/-- Suffix factor: `{'K': 1e3, 'k': 1e3, 'M': 1e6, 'm': 1e6}` with
`.fillna(1)` for a missing suffix. -/
def suffixMultiplier : Option Char → ℚ
  | some c => if c = 'k' || c = 'K' then 1000 else 1000000
  | none => 1

/-- Per-cell value before the final `Int64` cast: `none` models `NaN`.
A non-string cell is sent to `NaN` by the `.str` accessor of an
object-dtype column; a string without any digit yields no match. -/
def parseNumericCell : Cell → Option ℚ
  | .int _ => none
  | .str s =>
    match searchNumber (normalizeNumericString s).toList with
    | none => none
    | some (ds, fs, suf, _) => some (numberValue ds fs * suffixMultiplier suf)

/-- The `.astype('Int64')` cast of a float column: `NaN` becomes null, an
integral float becomes its integer, and any non-integral float raises. -/
def castInt64 (vals : List (Option ℚ)) : Except String (List (Option Int)) :=
  if vals.all (fun v => v.all (fun q => q.den = 1)) then
    .ok (vals.map (fun v => v.map (fun q => q.num)))
  else
    .error "cannot safely cast non-equivalent float64 to int64"

/-- The core of `_parse_numeric_column` on the cells of an object-dtype column. -/
def parseNumericCells (cells : List Cell) : Except String (List (Option Int)) :=
  castInt64 (cells.map parseNumericCell)

/-- A pandas column, tagged by dtype. -/
inductive Column where
  | obj (cells : List Cell)
  | nint (cells : List (Option Int))
  | num (cells : List Int)
  | dt (cells : List Int)
deriving Repr, DecidableEq

/-- A pandas DataFrame: named columns in order. -/
abbrev DataFrame := List (String × Column)

/-- The call `pd.to_datetime(col, utc=True)` (with `unit="s"` when `unitS` is set):
object columns go through the string parser `parse`, numeric columns are
epoch values, datetime columns are returned unchanged (`unit` is ignored
for datetime input).  Nulls of a nullable column would become `NaT`, which
never arises for the two date columns and is not modelled. -/
def to_datetime (parse : Cell → Int) (unitS : Bool) : Column → Column
  | .obj cells => .dt (cells.map parse)
  | .num cells => if unitS then .dt cells else .dt (cells.map (fun n => Int.tdiv n 1000000000))
  | .nint cells => .dt (cells.map (fun c => c.getD 0))
  | .dt cells => .dt cells

/-- The function `_parse_numeric_column` as applied to a whole column: the `.str`
accessor requires an object-dtype column and raises otherwise. -/
def parseNumericColumnOf : Column → Except String Column
  | .obj cells => (parseNumericCells cells).map .nint
  | _ => .error "Can only use .str accessor with string values!"

/-- Substring containment: some suffix of `name` starts with `sub`. -/
def containsSub (name sub : String) : Bool :=
  (List.range (name.toList.length + 1)).any
    (fun i => sub.toList.isPrefixOf (name.toList.drop i))

/-- The count-like column predicate: the name matches the case-sensitive
regex `number|Number`. -/
def isCountLike (name : String) : Bool :=
  containsSub name "number" || containsSub name "Number"

/-- Column lookup, `data[name]` (first match). -/
def lookupCol : DataFrame → String → Option Column
  | [], _ => none
  | p :: ps, name => if p.1 = name then some p.2 else lookupCol ps name

/-- Column assignment, `data[name] = col` (replaces in place, preserving
order). -/
def setCol : DataFrame → String → Column → DataFrame
  | [], _, _ => []
  | p :: ps, name, c => (if p.1 = name then (p.1, c) else p) :: setCol ps name c

/-- Exception-propagating column-wise map (`DataFrame.apply`). -/
def mapExcept {α β : Type} (f : α → Except String β) : List α → Except String (List β)
  | [] => .ok []
  | a :: as =>
    match f a with
    | .error e => .error e
    | .ok b => (mapExcept f as).map (fun bs => b :: bs)

/-- Applies `_parse_numeric_column` to the count-like columns only. -/
def cleanNumericCol (p : String × Column) : Except String (String × Column) :=
  if isCountLike p.1 then (parseNumericColumnOf p.2).map (fun c => (p.1, c)) else .ok p

/-- The function `_clean_columns`: parse the two date columns to UTC instants
(`videoExactPublishDate` as ISO strings, `scanTimeStamp` with `unit="s"`),
then run `_parse_numeric_column` over every column whose name contains
`number` or `Number`.  A missing date column raises `KeyError`. -/
def clean_columns (parse : Cell → Int) (df : DataFrame) : Except String DataFrame :=
  match lookupCol df "videoExactPublishDate" with
  | none => .error "KeyError: videoExactPublishDate"
  | some pc =>
    match lookupCol (setCol df "videoExactPublishDate" (to_datetime parse false pc))
        "scanTimeStamp" with
    | none => .error "KeyError: scanTimeStamp"
    | some sc =>
      mapExcept cleanNumericCol
        (setCol (setCol df "videoExactPublishDate" (to_datetime parse false pc))
          "scanTimeStamp" (to_datetime parse true sc))

/-! ## DurationLabeler: `_create_duration_model_columns`

One `Observation` per scrape event; instants are epoch seconds.  The source
computes `first_trending_time = df.groupby("videoId")["scanTimeStamp"].min()`,
merges it back onto every row (an inner join on `videoId`, which keeps every
row since each key occurs in the aggregate, and `sort_index()` restores the
input order), subtracts the publish instant, and tests the aggregate against
the corpus window `[min publish, max scan - Timedelta(delay, frequency)]`. -/

/-- One row of the raw observation table (the columns the labeler reads). -/
structure Observation where
  videoId : String
  videoExactPublishDate : Int
  scanTimeStamp : Int
deriving Repr, DecidableEq

/-- One row of the labeled table. -/
structure LabeledRecord where
  videoId : String
  videoExactPublishDate : Int
  scanTimeStamp : Int
  firstTrendingTime : Int
  timeToTrendSeconds : Int
  isTrend : Bool
deriving Repr, DecidableEq

/-- The `frequency` parameter of the labeler. -/
inductive Frequency where
  | hour
  | day
deriving Repr, DecidableEq

/-- Seconds in one unit of the given frequency. -/
def Frequency.seconds : Frequency → Int
  | .hour => 3600
  | .day => 86400

/-- Left fold of `min` (the pandas `Series.min()` aggregate). -/
def minFrom (x : Int) : List Int → Int
  | [] => x
  | y :: ys => minFrom (min x y) ys

/-- Left fold of `max` (the pandas `Series.max()` aggregate). -/
def maxFrom (x : Int) : List Int → Int
  | [] => x
  | y :: ys => maxFrom (max x y) ys

/-- The aggregate `df.groupby("videoId")["scanTimeStamp"].min()` evaluated at one key. -/
def firstTrendingTimeOf (data : List Observation) (vid : String) : Int :=
  match (data.filter (fun r => r.videoId == vid)).map (fun r => r.scanTimeStamp) with
  | [] => 0
  | t :: ts => minFrom t ts

/-- The aggregate `data["videoExactPublishDate"].min()` (the window start). -/
def minPublish (data : List Observation) : Int :=
  match data.map (fun r => r.videoExactPublishDate) with
  | [] => 0
  | t :: ts => minFrom t ts

/-- The aggregate `data["scanTimeStamp"].max()`. -/
def maxScan (data : List Observation) : Int :=
  match data.map (fun r => r.scanTimeStamp) with
  | [] => 0
  | t :: ts => maxFrom t ts

/-- The labeled record for one row: the merge step broadcasts the
per-video-id aggregate onto the row, then the column assignments compute
the duration and the window test (the window bounds are corpus-wide
constants). -/
def labelObservation (data : List Observation) (frequency : Frequency) (delay : ℚ)
    (r : Observation) : LabeledRecord :=
  let startDate := minPublish data
  let endDate : ℚ := (maxScan data : ℚ) - delay * (frequency.seconds : ℚ)
  let ftt := firstTrendingTimeOf data r.videoId
  { videoId := r.videoId
    videoExactPublishDate := r.videoExactPublishDate
    scanTimeStamp := r.scanTimeStamp
    firstTrendingTime := ftt
    timeToTrendSeconds := ftt - r.videoExactPublishDate
    isTrend := decide (((startDate : ℚ) ≤ (ftt : ℚ)) ∧ ((ftt : ℚ) ≤ endDate)) }

/-- The function `_create_duration_model_columns(data, frequency, delay)`.  The delay is
an exact rational (the source default `1.5` is a float); the window end
`max scan - Timedelta(delay, frequency)` is compared in `ℚ`. -/
def create_duration_model_columns (data : List Observation) (frequency : Frequency)
    (delay : ℚ) : List LabeledRecord :=
  data.map (labelObservation data frequency delay)

/-- The two-video corpus of §8 (the repository's own labeler test):
video1 published 2022-01-01 12:00 UTC and scanned 28 hours and 52 hours
later, video2 published 2022-01-02 12:00 UTC and scanned 28 hours later. -/
def durationDemoCorpus : List Observation :=
  [ { videoId := "video1", videoExactPublishDate := 1641038400, scanTimeStamp := 1641139200 },
    { videoId := "video1", videoExactPublishDate := 1641038400, scanTimeStamp := 1641225600 },
    { videoId := "video2", videoExactPublishDate := 1641124800, scanTimeStamp := 1641225600 } ]

/-! ## FeatureEncoder: `preprocessing_on_loading`

Fit mode learns the one-hot vocabulary of `videoCategory` with
`sklearn.OneHotEncoder(sparse=False, handle_unknown='ignore')` — the
vocabulary is the sorted deduplicated category list — and augments the
table; apply mode (`on_loading=True`) reuses a previously fitted vocabulary
and keeps only the prediction features.  The argument-validation prefix of
the function raises `ValueError` on each input-contract violation. -/

/-- Python `str.capitalize()`: first character upper-cased, the rest lower-cased. -/
def capitalizeStr (s : String) : String :=
  match s.toList with
  | [] => ""
  | c :: cs => String.mk (c.toUpper :: cs.map Char.toLower)

/-- The one-hot column naming rule:
`'videoCat_' + cat.replace(" & ", "_and_").strip().capitalize()`. -/
def videoCatColumnName (cat : String) : String :=
  "videoCat_" ++ capitalizeStr ((cat.replace " & " "_and_").trim)

/-- Inserts into a sorted list (ordering by `compare`). -/
def insertSorted (x : String) : List String → List String
  | [] => [x]
  | y :: ys =>
    match compare x y with
    | .gt => y :: insertSorted x ys
    | _ => x :: y :: ys

/-- Sorted deduplicated insertion, right to left. -/
def sortedDedup : List String → List String
  | [] => []
  | c :: cs =>
    let r := sortedDedup cs
    if c ∈ r then r else insertSorted c r

/-- Fitting, `OneHotEncoder.fit`: `categories_` is the sorted set of distinct
values observed in the fitted column (`np.unique`). -/
def fitCategories (cats : List String) : List String :=
  sortedDedup cats

/-- Applying, `OneHotEncoder.transform` on one value: one indicator column per
vocabulary entry; with `handle_unknown='ignore'` an unseen value maps to
the all-zero row. -/
def oneHotTransform (vocab : List String) (cat : String) : List ℚ :=
  vocab.map (fun c => if c = cat then 1 else 0)

/-- One row of the training table read by `preprocessing_on_loading`
(the `features` column list), with dates already instants. -/
structure VideoRow where
  videoId : String
  videoExactPublishDate : Int
  creatorSubscriberNumber : ℚ
  videoLengthSeconds : ℚ
  videoCategory : String
  isCreatorVerified : Bool
  scanTimeStamp : Int
  firstTrendingTime : Int
  isTrend : Bool
  timeToTrendSeconds : ℚ
deriving Repr, DecidableEq

/-- Pandas `Series.dt.day_name()` from epoch seconds (1970-01-01 was a Thursday);
floor division and a nonnegative remainder match the calendar for all
instants. -/
def dayNames : List String :=
  ["Thursday", "Friday", "Saturday", "Sunday", "Monday", "Tuesday", "Wednesday"]

def dayOfWeekName (t : Int) : String :=
  (dayNames.get? (Int.emod (Int.fdiv t 86400) 7).toNat).getD "Thursday"

/-- A row of the augmented training table produced by fit mode. -/
structure ProcessedRow where
  base : VideoRow
  isTrendInt : Int
  isCreatorVerifiedInt : Int
  timeToTrendDays : ℚ
  videoLengthDays : ℚ
  dayOfWeek : String
  videoCat : List ℚ
deriving Repr, DecidableEq

/-- A row of the prediction-feature table produced by apply mode
(`dayOfWeek` is computed by the source but dropped by the final
`df[prediction_features]` restriction). -/
structure PredictionRow where
  videoExactPublishDate : Int
  videoLengthSeconds : ℚ
  creatorSubscriberNumber : ℚ
  videoCat : List ℚ
deriving Repr, DecidableEq

/-- Result of `preprocessing_on_loading`: the processed table, the feature
name list, and (in fit mode) the fitted vocabulary. -/
inductive PreprocResult where
  | fit (rows : List ProcessedRow) (model_features : List String) (vocab : List String)
  | applied (rows : List PredictionRow) (prediction_features : List String)
deriving Repr, DecidableEq

/-- The fit-mode tail of `preprocessing_on_loading`: convert the boolean
columns to ints, derive the day-denominated columns and `dayOfWeek`, fit
the one-hot encoder on `videoCategory`, and list the model features. -/
def fitTransform (rows : List VideoRow) : PreprocResult :=
  let vocab := fitCategories (rows.map (fun r => r.videoCategory))
  let processed := rows.map fun r =>
    { base := r
      isTrendInt := if r.isTrend then 1 else 0
      isCreatorVerifiedInt := if r.isCreatorVerified then 1 else 0
      timeToTrendDays := r.timeToTrendSeconds / 86400
      videoLengthDays := r.videoLengthSeconds / 86400
      dayOfWeek := dayOfWeekName r.videoExactPublishDate
      videoCat := oneHotTransform vocab r.videoCategory }
  let model_features :=
    ["timeToTrendDays", "isTrend", "creatorSubscriberNumber", "videoLengthSeconds"] ++
      vocab.map videoCatColumnName
  .fit processed model_features vocab

/-- The apply-mode branch (`on_loading=True`): re-encode `videoCategory`
with the fitted vocabulary and keep exactly the prediction features. -/
def applyTransform (vocab : List String) (rows : List VideoRow) : PreprocResult :=
  let encRows := rows.map fun r =>
    { videoExactPublishDate := r.videoExactPublishDate
      videoLengthSeconds := r.videoLengthSeconds
      creatorSubscriberNumber := r.creatorSubscriberNumber
      videoCat := oneHotTransform vocab r.videoCategory : PredictionRow }
  let prediction_features :=
    ["videoExactPublishDate", "videoLengthSeconds", "creatorSubscriberNumber"] ++
      vocab.map videoCatColumnName
  .applied encRows prediction_features

/-- The function `preprocessing_on_loading(filename, dataframe, on_loading, video_cat_enc)`.
The file system is a name-to-table map; a supplied path is read only after
the neither/both checks.  Calling apply mode without a fitted encoder
dereferences `None` and raises. -/
def preprocessing_on_loading (files : List (String × List VideoRow))
    (filename : Option String) (dataframe : Option (List VideoRow))
    (on_loading : Bool) (video_cat_enc : Option (List String)) :
    Except String PreprocResult :=
  match filename, dataframe with
  | none, none => .error "Either a filename or a DataFrame must be provided."
  | some _, some _ => .error "Only one of filename or DataFrame should be provided."
  | some f, none =>
    match files.lookup f with
    | none => .error ("File " ++ f ++ " does not exist.")
    | some rows => .ok (fitTransform rows)
  | none, some rows =>
    if rows.isEmpty then .error "Provided DataFrame is empty."
    else if on_loading then
      match video_cat_enc with
      | some vocab => .ok (applyTransform vocab rows)
      | none => .error "AttributeError: NoneType object has no attribute transform"
    else .ok (fitTransform rows)

/-! ## PredictionPreprocessor: `_normalize` -/

/-- The function `_normalize(series, data_max, data_min)` on one value:
`np.maximum((series - data_min) / (data_max - data_min), [0])`. -/
def normalizeValue (x data_max data_min : ℚ) : ℚ :=
  max ((x - data_min) / (data_max - data_min)) 0

/-- The function `_normalize` on a whole series (numpy broadcasts elementwise). -/
def normalizeSeries (xs : List ℚ) (data_max data_min : ℚ) : List ℚ :=
  xs.map (fun x => normalizeValue x data_max data_min)

/-! ## SurvivalPredictor

`survival_probability` defines, per call, the closures
`predict_cumulative_hazard_at_single_time(self, X, times) = (times / lambda_) ** rho_`
and `predict_survival_function_at_single_time = exp(-hazard)`, where
`lambda_`, `rho_` are the fitted location and shape scores for the covariate
vector, and then attaches both to the process-wide `FINAL_MODEL` object with
`__get__` before evaluating.  The closed forms are modelled over `ℝ`; the
attachment is modelled as the call's effect on the shared model state. -/

noncomputable def predict_cumulative_hazard_at_single_time (lambdaScore rhoScore t : ℝ) : ℝ :=
  (t / lambdaScore) ^ rhoScore

noncomputable def predict_survival_function_at_single_time (lambdaScore rhoScore t : ℝ) : ℝ :=
  Real.exp (-(predict_cumulative_hazard_at_single_time lambdaScore rhoScore t))

/-- The process-wide fitted model object (`FINAL_MODEL`): its fitted
parameters, plus the set of dynamically attached attribute names. -/
structure FittedAFTModel where
  coeffs : List ℚ
  attachedMethodNames : List String
deriving Repr, DecidableEq

/-- The effect of one `survival_probability` call on the shared model:
lines 105-110 of `make_predictions.py` assign
`FINAL_MODEL.predict_survival_function_at_single_time` and then
`FINAL_MODEL.predict_cumulative_hazard_at_single_time` (`setattr` adds the
name if absent and overwrites it otherwise; the fitted parameters are not
touched). -/
def survival_probability_model_after (m : FittedAFTModel) : FittedAFTModel :=
  { m with
    attachedMethodNames :=
      ((m.attachedMethodNames.insert "predict_survival_function_at_single_time").insert
        "predict_cumulative_hazard_at_single_time") }

/-! ## TrendCurveGenerator: `plot_survival_probability`

`duration = [gap * (i + 1) for i in range(int(duration_days / gap))]`,
`date_0` is the publish instant or a later caller-supplied start, the
probabilities are `survival_probability(date = date_0 + Timedelta(days=dur))`
for each sample, and the function returns `x = [1..len]` paired with the
probabilities.  Dates are in fractional days; the per-date survival
evaluation (network fetch plus model call) is the parameter `P`. -/

/-- One row of the training table as consumed by the group estimator (the
columns used by its test). -/
structure TrainRow where
  videoLengthDays : ℚ
  isTrend : Bool
  dayOfWeek : String
  videoCategory : String
deriving Repr, DecidableEq

/-- Splits a character list on spaces. -/
def splitOnSpace : List Char → List (List Char)
  | [] => [[]]
  | c :: cs =>
    match splitOnSpace cs with
    | [] => [[c]]
    | w :: ws => if c = ' ' then [] :: w :: ws else (c :: w) :: ws

/-- Python `str.title()`-style normalization: capitalize each
space-separated word. -/
def titleCase (s : String) : String :=
  String.intercalate " " ((splitOnSpace s.toList).map (fun w => capitalizeStr (String.mk w)))

/-- Modelled from the spec: the filtered subgroup — rows matching both
labels, or the category-only fallback when that set is empty. -/
def kmfFilteredSet (day videoCat : String) (full_df : List TrainRow) : List TrainRow :=
  let d := titleCase day
  let c := titleCase videoCat
  let f0 := full_df.filter (fun r => r.dayOfWeek == d && r.videoCategory == c)
  if f0.isEmpty then full_df.filter (fun r => r.videoCategory == c) else f0

/-- Modelled from the spec: the returned group label ("None" marks the
category-only fallback). -/
def kmfGroupLabel (day videoCat : String) (full_df : List TrainRow) : String :=
  let d := titleCase day
  let c := titleCase videoCat
  if (full_df.filter (fun r => r.dayOfWeek == d && r.videoCategory == c)).isEmpty
  then "None" else d

/-- Modelled from the spec: the number of duplicate censored rows the
stabilization step appends — enough to lift the censored count of the
filtered set up to the ceiling of `minFrac` times its size. -/
def kmfNeeded (minFrac : ℚ) (filtered : List TrainRow) : ℕ :=
  (⌈minFrac * (filtered.length : ℚ)⌉ - (filtered.countP (fun r => !r.isTrend) : ℤ)).toNat

/-- Modelled from the spec: the appended duplicates — a deterministic
(reseeded) sample of the filtered rows, each marked censored. -/
def kmfExtras (minFrac : ℚ) (filtered : List TrainRow) : List (ℚ × Bool) :=
  (List.range (kmfNeeded minFrac filtered)).map (fun i =>
    match filtered.get? (i % filtered.length) with
    | some r => (r.videoLengthDays, false)
    | none => (0, false))

/-- Modelled from the spec: `_kmf_model_per_day_and_video_cat`.  Returns
the group label together with the (duration, event) pairs the Kaplan-Meier
estimator is fitted on; `minFrac` is the small-sample stabilization target
(default 5%). -/
def kmf_model_per_day_and_video_cat (day videoCat : String) (minFrac : ℚ)
    (full_df : List TrainRow) : Except String (String × List (ℚ × Bool)) :=
  if !(((full_df.map (fun r => r.dayOfWeek)).dedup).contains (titleCase day)) ||
      !(((full_df.map (fun r => r.videoCategory)).dedup).contains (titleCase videoCat)) then
    .error ("Invalid group: day must be one of " ++
      toString ((full_df.map (fun r => r.dayOfWeek)).dedup) ++
      " and category must be one of " ++
      toString ((full_df.map (fun r => r.videoCategory)).dedup))
  else
    .ok (kmfGroupLabel day videoCat full_df,
      (kmfFilteredSet day videoCat full_df).map (fun r => (r.videoLengthDays, r.isTrend)) ++
        kmfExtras minFrac (kmfFilteredSet day videoCat full_df))

/-- The training table of the repository's group-estimator test. -/
def kmfDemoTable : List TrainRow :=
  [ { videoLengthDays := 1, isTrend := false, dayOfWeek := "Monday", videoCategory := "Comedy" },
    { videoLengthDays := 2, isTrend := true, dayOfWeek := "Monday", videoCategory := "Comedy" },
    { videoLengthDays := 3, isTrend := true, dayOfWeek := "Monday", videoCategory := "Comedy" },
    { videoLengthDays := 4, isTrend := false, dayOfWeek := "Monday", videoCategory := "Comedy" },
    { videoLengthDays := 5, isTrend := true, dayOfWeek := "Monday", videoCategory := "Comedy" } ]

/-! ## Concrete tables for the normalizer -/

/-- A string-parsing oracle pinning every date string to one instant. -/
def c2CexParse : Cell → Int := fun _ => 1641038400

/-- A raw table with one count-like column. -/
def c2CexTable : DataFrame :=
  [ ("videoExactPublishDate", .obj [.str "2022-01-01 12:00:00"]),
    ("scanTimeStamp", .num [1641062400]),
    ("numberLikes", .obj [.str "1.2K"]) ]

/-- The table `c2CexTable` after one normalization pass. -/
def c2CexCleaned : DataFrame :=
  [ ("videoExactPublishDate", .dt [1641038400]),
    ("scanTimeStamp", .dt [1641062400]),
    ("numberLikes", .nint [some 1200]) ]

/-- A raw table without count-like columns. -/
def c2IdemTable : DataFrame :=
  [ ("videoExactPublishDate", .obj [.str "2022-01-01 12:00:00"]),
    ("scanTimeStamp", .num [1641062400]) ]

/-- The table `c2IdemTable` after one normalization pass. -/
def c2IdemCleaned : DataFrame :=
  [ ("videoExactPublishDate", .dt [1641038400]),
    ("scanTimeStamp", .dt [1641062400]) ]

/-! ## Helper lemmas -/

theorem minFrom_le : ∀ (l : List Int) (x : Int), minFrom x l ≤ x ∧ ∀ y ∈ l, minFrom x l ≤ y := by
  intro l
  induction l with
  | nil => exact fun x => ⟨le_refl x, by simp⟩
  | cons y ys ih =>
    intro x
    have h := ih (min x y)
    simp only [minFrom]
    refine ⟨h.1.trans (min_le_left x y), ?_⟩
    intro z hz
    rcases List.mem_cons.mp hz with rfl | hz
    · exact h.1.trans (min_le_right x z)
    · exact h.2 z hz

theorem minFrom_mem : ∀ (l : List Int) (x : Int), minFrom x l = x ∨ minFrom x l ∈ l := by
  intro l
  induction l with
  | nil => exact fun _ => Or.inl rfl
  | cons y ys ih =>
    intro x
    simp only [minFrom]
    rcases ih (min x y) with h | h
    · rcases le_total x y with hxy | hxy
      · exact Or.inl (by rw [h, min_eq_left hxy])
      · exact Or.inr (by rw [h, min_eq_right hxy]; exact List.mem_cons_self y ys)
    · exact Or.inr (List.mem_cons_of_mem y h)

theorem minFrom_spec (t : Int) (ts : List Int) :
    minFrom t ts ∈ t :: ts ∧ ∀ y ∈ t :: ts, minFrom t ts ≤ y := by
  constructor
  · rcases minFrom_mem ts t with h | h
    · rw [h]; exact List.mem_cons_self t ts
    · exact List.mem_cons_of_mem t h
  · intro y hy
    rcases List.mem_cons.mp hy with h | hy
    · rw [h]; exact (minFrom_le ts t).1
    · exact (minFrom_le ts t).2 y hy

theorem maxFrom_le : ∀ (l : List Int) (x : Int), x ≤ maxFrom x l ∧ ∀ y ∈ l, y ≤ maxFrom x l := by
  intro l
  induction l with
  | nil => exact fun x => ⟨le_refl x, by simp⟩
  | cons y ys ih =>
    intro x
    have h := ih (max x y)
    simp only [maxFrom]
    refine ⟨(le_max_left x y).trans h.1, ?_⟩
    intro z hz
    rcases List.mem_cons.mp hz with rfl | hz
    · exact (le_max_right x z).trans h.1
    · exact h.2 z hz

theorem maxFrom_mem : ∀ (l : List Int) (x : Int), maxFrom x l = x ∨ maxFrom x l ∈ l := by
  intro l
  induction l with
  | nil => exact fun _ => Or.inl rfl
  | cons y ys ih =>
    intro x
    simp only [maxFrom]
    rcases ih (max x y) with h | h
    · rcases le_total x y with hxy | hxy
      · exact Or.inr (by rw [h, max_eq_right hxy]; exact List.mem_cons_self y ys)
      · exact Or.inl (by rw [h, max_eq_left hxy])
    · exact Or.inr (List.mem_cons_of_mem y h)

theorem maxFrom_spec (t : Int) (ts : List Int) :
    maxFrom t ts ∈ t :: ts ∧ ∀ y ∈ t :: ts, y ≤ maxFrom t ts := by
  constructor
  · rcases maxFrom_mem ts t with h | h
    · rw [h]; exact List.mem_cons_self t ts
    · exact List.mem_cons_of_mem t h
  · intro y hy
    rcases List.mem_cons.mp hy with h | hy
    · rw [h]; exact (maxFrom_le ts t).1
    · exact (maxFrom_le ts t).2 y hy

/-- C5 counterexample.  The claim says a `survival_probability` call leaves
the process-wide fitted model unchanged, with no attribute added or
replaced; the call attaches the two evaluation methods to the shared
object, so a freshly loaded model (no attached methods) is changed. -/
theorem c5_counterexample :
    survival_probability_model_after { coeffs := [1], attachedMethodNames := [] } ≠
      { coeffs := [1], attachedMethodNames := [] } := by
  decide

/-- C5 (amended): a `survival_probability` call leaves the fitted
parameters of the shared model unchanged but attaches (or overwrites) the
two evaluation methods on it: afterwards the attached-attribute set is the
prior set plus the two method names, and the model object is unchanged
only when both methods were already attached (every call after the
first). -/
theorem c5_model_mutation (m : FittedAFTModel) :
    (survival_probability_model_after m).coeffs = m.coeffs ∧
    (∀ a : String,
      a ∈ (survival_probability_model_after m).attachedMethodNames ↔
        (a = "predict_cumulative_hazard_at_single_time" ∨
          a = "predict_survival_function_at_single_time" ∨
          a ∈ m.attachedMethodNames)) ∧
    ("predict_survival_function_at_single_time" ∈ m.attachedMethodNames →
      "predict_cumulative_hazard_at_single_time" ∈ m.attachedMethodNames →
      survival_probability_model_after m = m) := by
  refine ⟨rfl, ?_, ?_⟩
  · intro a
    simp [survival_probability_model_after, List.mem_insert_iff]
  · intro h1 h2
    have hs : m.attachedMethodNames.insert "predict_survival_function_at_single_time" =
        m.attachedMethodNames := List.insert_of_mem h1
    simp only [survival_probability_model_after, hs, List.insert_of_mem h2]

/-- C5 witness: a model that already carries both attached methods is left
unchanged. -/
theorem c5_model_mutation_witness :
    survival_probability_model_after
        { coeffs := [1],
          attachedMethodNames := ["predict_survival_function_at_single_time",
            "predict_cumulative_hazard_at_single_time"] } =
      { coeffs := [1],
        attachedMethodNames := ["predict_survival_function_at_single_time",
          "predict_cumulative_hazard_at_single_time"] } :=
  (c5_model_mutation
      { coeffs := [1],
        attachedMethodNames := ["predict_survival_function_at_single_time",
          "predict_cumulative_hazard_at_single_time"] }).2.2
    (by decide) (by decide)

/-! ## C6: PredictionPreprocessor -/

/-- C6: `_normalize` rescales via `max((x - min) / (max - min), 0)`: every
value at or below the training minimum maps to 0, values above the maximum
exceed 1 (no upper cap), and on the scaling range (min=2, max=4) the series
`[1,2,3,4,5]` maps exactly to `[0, 0, 0.5, 1, 1.5]`. -/
theorem c6_normalize (data_min data_max x : ℚ) (h : data_min < data_max) :
    (x ≤ data_min → normalizeValue x data_max data_min = 0) ∧
    (data_max < x → 1 < normalizeValue x data_max data_min) ∧
    normalizeSeries [1, 2, 3, 4, 5] 4 2 = [0, 0, 1/2, 1, 3/2] := by
  have hd : 0 < data_max - data_min := sub_pos.mpr h
  have hser : normalizeSeries [1, 2, 3, 4, 5] 4 2 = [0, 0, 1/2, 1, 3/2] := by
    have h1 : normalizeValue 1 4 2 = 0 := by
      rw [normalizeValue, max_eq_right (by norm_num)]
    have h2 : normalizeValue 2 4 2 = 0 := by
      rw [normalizeValue, max_eq_right (by norm_num)]
    have h3 : normalizeValue 3 4 2 = 1/2 := by
      rw [normalizeValue, max_eq_left (by norm_num)]
      norm_num
    have h4 : normalizeValue 4 4 2 = 1 := by
      rw [normalizeValue, max_eq_left (by norm_num)]
      norm_num
    have h5 : normalizeValue 5 4 2 = 3/2 := by
      rw [normalizeValue, max_eq_left (by norm_num)]
      norm_num
    simp [normalizeSeries, h1, h2, h3, h4, h5]
  refine ⟨?_, ?_, hser⟩
  · intro hx
    have hnum : (x - data_min) / (data_max - data_min) ≤ 0 := by
      rw [div_le_iff₀ hd]
      linarith
    simpa [normalizeValue] using max_eq_right hnum
  · intro hx
    have h1 : 1 < (x - data_min) / (data_max - data_min) := by
      rw [lt_div_iff₀ hd]
      linarith
    exact h1.trans_le (le_max_left _ _)

/-- C6 witness. -/
theorem c6_normalize_witness : normalizeValue 1 4 2 = 0 :=
  (c6_normalize 2 4 1 (by norm_num)).1 (by norm_num)

/-! ## C7: SurvivalPredictor value -/

/-- C7: for fitted location and shape scores λ > 0, ρ > 0 and any finite
elapsed time t ≥ 0, the survival evaluation returns exp(−(t/λ)^ρ), which
lies in [0, 1], and at t = 0 it returns exactly 1. -/
theorem c7_survival_function (lambdaScore rhoScore t : ℝ)
    (hlam : 0 < lambdaScore) (hrho : 0 < rhoScore) (ht : 0 ≤ t) :
    predict_survival_function_at_single_time lambdaScore rhoScore t =
      Real.exp (-((t / lambdaScore) ^ rhoScore)) ∧
    0 ≤ predict_survival_function_at_single_time lambdaScore rhoScore t ∧
    predict_survival_function_at_single_time lambdaScore rhoScore t ≤ 1 ∧
    predict_survival_function_at_single_time lambdaScore rhoScore 0 = 1 := by
  have hdiv : (0 : ℝ) ≤ t / lambdaScore := div_nonneg ht hlam.le
  have hrp : (0 : ℝ) ≤ (t / lambdaScore) ^ rhoScore := Real.rpow_nonneg hdiv _
  refine ⟨rfl, (Real.exp_pos _).le, ?_, ?_⟩
  · rw [predict_survival_function_at_single_time,
      predict_cumulative_hazard_at_single_time, Real.exp_le_one_iff]
    linarith
  · rw [predict_survival_function_at_single_time,
      predict_cumulative_hazard_at_single_time, zero_div,
      Real.zero_rpow hrho.ne', neg_zero, Real.exp_zero]

/-- C7 witness. -/
theorem c7_survival_function_witness :
    predict_survival_function_at_single_time 1 1 0 = 1 :=
  (c7_survival_function 1 1 0 one_pos one_pos le_rfl).2.2.2

/-! ## C8: FeatureEncoder input validation -/

/-- C8: `preprocessing_on_loading` fails when neither a file path nor an
in-memory table is supplied, fails when both are supplied, fails when the
supplied table has zero rows, and fails when a supplied file path does not
exist — in each case with an error, never by substituting a default
input. -/
theorem c8_input_validation (files : List (String × List VideoRow))
    (rows : List VideoRow) (f : String) (ol : Bool) (enc : Option (List String))
    (hf : files.lookup f = none) :
    preprocessing_on_loading files none none ol enc =
      .error "Either a filename or a DataFrame must be provided." ∧
    preprocessing_on_loading files (some f) (some rows) ol enc =
      .error "Only one of filename or DataFrame should be provided." ∧
    preprocessing_on_loading files (some f) none ol enc =
      .error ("File " ++ f ++ " does not exist.") ∧
    preprocessing_on_loading files none (some []) ol enc =
      .error "Provided DataFrame is empty." := by
  refine ⟨rfl, rfl, ?_, rfl⟩
  simp [preprocessing_on_loading, hf]

/-- C8 witness. -/
theorem c8_input_validation_witness :
    preprocessing_on_loading [] none none false none =
      .error "Either a filename or a DataFrame must be provided." :=
  (c8_input_validation [] [] "train_duration.csv" false none rfl).1

/-! ## C1: DurationLabeler -/

theorem create_duration_demo_eval :
    create_duration_model_columns durationDemoCorpus .day 1 =
      [ { videoId := "video1", videoExactPublishDate := 1641038400,
          scanTimeStamp := 1641139200, firstTrendingTime := 1641139200,
          timeToTrendSeconds := 100800, isTrend := true },
        { videoId := "video1", videoExactPublishDate := 1641038400,
          scanTimeStamp := 1641225600, firstTrendingTime := 1641139200,
          timeToTrendSeconds := 100800, isTrend := true },
        { videoId := "video2", videoExactPublishDate := 1641124800,
          scanTimeStamp := 1641225600, firstTrendingTime := 1641225600,
          timeToTrendSeconds := 100800, isTrend := false } ] := by
  have h1 : firstTrendingTimeOf
      [⟨"video1", 1641038400, 1641139200⟩, ⟨"video1", 1641038400, 1641225600⟩,
        ⟨"video2", 1641124800, 1641225600⟩] "video1" = 1641139200 := by decide
  have h2 : firstTrendingTimeOf
      [⟨"video1", 1641038400, 1641139200⟩, ⟨"video1", 1641038400, 1641225600⟩,
        ⟨"video2", 1641124800, 1641225600⟩] "video2" = 1641225600 := by decide
  have hp : minPublish
      [⟨"video1", 1641038400, 1641139200⟩, ⟨"video1", 1641038400, 1641225600⟩,
        ⟨"video2", 1641124800, 1641225600⟩] = 1641038400 := by decide
  have hs : maxScan
      [⟨"video1", 1641038400, 1641139200⟩, ⟨"video1", 1641038400, 1641225600⟩,
        ⟨"video2", 1641124800, 1641225600⟩] = 1641225600 := by decide
  simp only [create_duration_model_columns, labelObservation, durationDemoCorpus, List.map,
    h1, h2, hp, hs, Frequency.seconds, List.cons.injEq, LabeledRecord.mk.injEq,
    decide_eq_true_eq, decide_eq_false_iff_not]
  norm_num

/-- C1: for every input table, row i of the labeled output carries a
`firstTrendingTime` equal to the minimum `scanTimeStamp` over the rows
sharing row i's `videoId`, a `timeToTrendSeconds` equal to that aggregate
minus row i's publish instant, and `isTrend` true exactly when the
aggregate lies between the corpus-wide minimum publish instant and the
corpus-wide maximum scan instant minus the configured delay; on the
two-video corpus of §8 (delay=1, frequency="day") the two videos receive
different `isTrend` values while every row receives
`timeToTrendSeconds` = 100800. -/
theorem c1_duration_labeler (data : List Observation) (freq : Frequency) (delay : ℚ)
    (i : ℕ) (r : Observation) (o : LabeledRecord)
    (hr : data.get? i = some r)
    (ho : (create_duration_model_columns data freq delay).get? i = some o) :
    ((∃ s ∈ data, s.videoId = r.videoId ∧ s.scanTimeStamp = o.firstTrendingTime) ∧
      (∀ s ∈ data, s.videoId = r.videoId → o.firstTrendingTime ≤ s.scanTimeStamp)) ∧
    o.timeToTrendSeconds = o.firstTrendingTime - r.videoExactPublishDate ∧
    (o.isTrend = true ↔
      ((minPublish data : ℚ) ≤ (o.firstTrendingTime : ℚ) ∧
        (o.firstTrendingTime : ℚ) ≤ (maxScan data : ℚ) - delay * (freq.seconds : ℚ))) ∧
    ((∃ s ∈ data, s.videoExactPublishDate = minPublish data) ∧
      (∀ s ∈ data, minPublish data ≤ s.videoExactPublishDate)) ∧
    ((∃ s ∈ data, s.scanTimeStamp = maxScan data) ∧
      (∀ s ∈ data, s.scanTimeStamp ≤ maxScan data)) ∧
    (create_duration_model_columns durationDemoCorpus .day 1).map
        (fun l => (l.timeToTrendSeconds, l.isTrend)) =
      [(100800, true), (100800, true), (100800, false)] := by
  have hrmem : r ∈ data := List.get?_mem hr
  have hdata : ∃ a as, data = a :: as := by
    cases data with
    | nil => cases hrmem
    | cons a as => exact ⟨a, as, rfl⟩
  have ho2 : o = labelObservation data freq delay r := by
    rw [create_duration_model_columns, List.get?_map, hr] at ho
    simpa using ho.symm
  subst ho2
  have hproj : (labelObservation data freq delay r).firstTrendingTime =
      firstTrendingTimeOf data r.videoId := rfl
  have hfilter : r.scanTimeStamp ∈
      (data.filter (fun s => s.videoId == r.videoId)).map (fun s => s.scanTimeStamp) :=
    List.mem_map.mpr ⟨r, List.mem_filter.mpr ⟨hrmem, by simp⟩, rfl⟩
  refine ⟨?_, rfl, by simp [labelObservation], ?_, ?_, by rw [create_duration_demo_eval]; rfl⟩
  · cases hF : (data.filter (fun s => s.videoId == r.videoId)).map (fun s => s.scanTimeStamp) with
    | nil => rw [hF] at hfilter; cases hfilter
    | cons t ts =>
      have hftt : firstTrendingTimeOf data r.videoId = minFrom t ts := by
        simp only [firstTrendingTimeOf, hF]
      constructor
      · have hmem : minFrom t ts ∈
            (data.filter (fun s => s.videoId == r.videoId)).map (fun s => s.scanTimeStamp) := by
          rw [hF]; exact (minFrom_spec t ts).1
        obtain ⟨s, hsF, hseq⟩ := List.mem_map.mp hmem
        obtain ⟨hsdata, hsvid⟩ := List.mem_filter.mp hsF
        exact ⟨s, hsdata, by simpa using hsvid, by rw [hproj, hftt]; exact hseq⟩
      · intro s hs hvid
        have hmem : s.scanTimeStamp ∈
            (data.filter (fun u => u.videoId == r.videoId)).map (fun u => u.scanTimeStamp) :=
          List.mem_map.mpr ⟨s, List.mem_filter.mpr ⟨hs, by simp [hvid]⟩, rfl⟩
        rw [hF] at hmem
        rw [hproj, hftt]
        exact (minFrom_spec t ts).2 _ hmem
  · obtain ⟨a, as, rfl⟩ := hdata
    have hdef : minPublish (a :: as) =
        minFrom a.videoExactPublishDate (as.map (fun s => s.videoExactPublishDate)) := rfl
    constructor
    · have hmem := (minFrom_spec a.videoExactPublishDate
        (as.map (fun s => s.videoExactPublishDate))).1
      rw [← List.map_cons] at hmem
      obtain ⟨s, hsmem, hseq⟩ := List.mem_map.mp hmem
      exact ⟨s, hsmem, by rw [hdef, hseq]⟩
    · intro s hs
      have hmem : s.videoExactPublishDate ∈
          (a :: as).map (fun u => u.videoExactPublishDate) := List.mem_map_of_mem _ hs
      rw [List.map_cons] at hmem
      rw [hdef]
      exact (minFrom_spec _ _).2 _ hmem
  · obtain ⟨a, as, rfl⟩ := hdata
    have hdef : maxScan (a :: as) =
        maxFrom a.scanTimeStamp (as.map (fun s => s.scanTimeStamp)) := rfl
    constructor
    · have hmem := (maxFrom_spec a.scanTimeStamp (as.map (fun s => s.scanTimeStamp))).1
      rw [← List.map_cons] at hmem
      obtain ⟨s, hsmem, hseq⟩ := List.mem_map.mp hmem
      exact ⟨s, hsmem, by rw [hdef, hseq]⟩
    · intro s hs
      have hmem : s.scanTimeStamp ∈ (a :: as).map (fun u => u.scanTimeStamp) :=
        List.mem_map_of_mem _ hs
      rw [List.map_cons] at hmem
      rw [hdef]
      exact (maxFrom_spec _ _).2 _ hmem

/-! ## C4: FeatureEncoder one-hot round-trip -/

theorem mem_insertSorted (x a : String) (l : List String) :
    a ∈ insertSorted x l ↔ a = x ∨ a ∈ l := by
  induction l with
  | nil => simp [insertSorted]
  | cons y ys ih =>
    simp only [insertSorted]
    cases compare x y with
    | lt => simp [List.mem_cons]
    | eq => simp [List.mem_cons]
    | gt =>
      simp only [List.mem_cons, ih]
      tauto

theorem nodup_insertSorted (x : String) (l : List String) (hx : x ∉ l) (h : l.Nodup) :
    (insertSorted x l).Nodup := by
  induction l with
  | nil => simp [insertSorted]
  | cons y ys ih =>
    obtain ⟨hy, hys⟩ := List.nodup_cons.mp h
    have hxy : x ≠ y := fun he => hx (he ▸ List.mem_cons_self y ys)
    have hxys : x ∉ ys := fun he => hx (List.mem_cons_of_mem y he)
    simp only [insertSorted]
    cases compare x y with
    | lt => exact List.nodup_cons.mpr ⟨by simp [List.mem_cons, hxy, hxys], h⟩
    | eq => exact List.nodup_cons.mpr ⟨by simp [List.mem_cons, hxy, hxys], h⟩
    | gt =>
      refine List.nodup_cons.mpr ⟨?_, ih hxys hys⟩
      rw [mem_insertSorted]
      rintro (he | he)
      · exact hxy he.symm
      · exact hy he

theorem mem_sortedDedup (a : String) (l : List String) : a ∈ sortedDedup l ↔ a ∈ l := by
  induction l with
  | nil => simp [sortedDedup]
  | cons c cs ih =>
    simp only [sortedDedup]
    by_cases hc : c ∈ sortedDedup cs
    · simp only [hc, if_true, List.mem_cons, ih]
      constructor
      · exact Or.inr
      · rintro (rfl | h)
        · exact ih.mp hc
        · exact h
    · simp only [hc, if_false, mem_insertSorted, List.mem_cons, ih]

theorem nodup_sortedDedup (l : List String) : (sortedDedup l).Nodup := by
  induction l with
  | nil => simp [sortedDedup]
  | cons c cs ih =>
    simp only [sortedDedup]
    by_cases hc : c ∈ sortedDedup cs
    · simpa [hc] using ih
    · simpa [hc] using nodup_insertSorted c (sortedDedup cs) hc ih

/-- C4: encoding a record whose category is in the fitted vocabulary
produces exactly one 1, in the one-hot column of that category, and 0 in
every other column; encoding a record whose category is absent from the
vocabulary produces the all-zero row (and, being total, never raises). -/
theorem c4_one_hot_round_trip (trainCats : List String) (cat : String) :
    (cat ∈ trainCats →
      ∃ j : ℕ, (fitCategories trainCats).get? j = some cat ∧
        (oneHotTransform (fitCategories trainCats) cat).get? j = some 1 ∧
        ∀ k : ℕ, k ≠ j → ∀ q : ℚ,
          (oneHotTransform (fitCategories trainCats) cat).get? k = some q → q = 0) ∧
    (cat ∉ trainCats → ∀ k : ℕ, ∀ q : ℚ,
      (oneHotTransform (fitCategories trainCats) cat).get? k = some q → q = 0) := by
  constructor
  · intro hmem
    have hv : cat ∈ fitCategories trainCats := (mem_sortedDedup cat trainCats).mpr hmem
    obtain ⟨j, hj⟩ := List.mem_iff_get?.mp hv
    refine ⟨j, hj, ?_, ?_⟩
    · rw [oneHotTransform, List.get?_map, hj]
      simp
    · intro k hk q hq
      rw [oneHotTransform, List.get?_map] at hq
      cases hgk : (fitCategories trainCats).get? k with
      | none => rw [hgk] at hq; cases hq
      | some c =>
        rw [hgk] at hq
        by_cases hc : c = cat
        · exfalso
          apply hk
          have hklt : k < (fitCategories trainCats).length := by
            by_contra hge
            rw [List.get?_eq_none.mpr (le_of_not_lt hge)] at hgk
            cases hgk
          exact List.get?_inj hklt (nodup_sortedDedup trainCats) (by rw [hgk, hj, hc])
        · simp only [Option.map_some'] at hq
          rw [if_neg hc] at hq
          exact (Option.some.inj hq).symm
  · intro hmem k q hq
    rw [oneHotTransform, List.get?_map] at hq
    cases hgk : (fitCategories trainCats).get? k with
    | none => rw [hgk] at hq; cases hq
    | some c =>
      rw [hgk] at hq
      have hc : c ≠ cat := by
        intro he
        exact hmem ((mem_sortedDedup cat trainCats).mp (he ▸ List.get?_mem hgk))
      simp only [Option.map_some'] at hq
      rw [if_neg hc] at hq
      exact (Option.some.inj hq).symm

/-- C4 witness. -/
theorem c4_one_hot_round_trip_witness :
    ∃ j : ℕ, (fitCategories ["Music", "Comedy"]).get? j = some "Comedy" ∧
      (oneHotTransform (fitCategories ["Music", "Comedy"]) "Comedy").get? j = some 1 ∧
      ∀ k : ℕ, k ≠ j → ∀ q : ℚ,
        (oneHotTransform (fitCategories ["Music", "Comedy"]) "Comedy").get? k = some q → q = 0 :=
  (c4_one_hot_round_trip ["Music", "Comedy"] "Comedy").1 (by decide)

/-- C1 witness. -/
theorem c1_duration_labeler_witness :
    (create_duration_model_columns durationDemoCorpus .day 1).map
        (fun l => (l.timeToTrendSeconds, l.isTrend)) =
      [(100800, true), (100800, true), (100800, false)] :=
  (c1_duration_labeler durationDemoCorpus .day 1 0
    { videoId := "video1", videoExactPublishDate := 1641038400, scanTimeStamp := 1641139200 }
    { videoId := "video1", videoExactPublishDate := 1641038400, scanTimeStamp := 1641139200,
      firstTrendingTime := 1641139200, timeToTrendSeconds := 100800, isTrend := true }
    (by decide) (by rw [create_duration_demo_eval]; rfl)).2.2.2.2.2

/-! ## C2: ColumnNormalizer idempotence -/

theorem mapExcept_ok_id {α : Type} (f : α → Except String α) (l : List α)
    (h : ∀ a ∈ l, f a = .ok a) : mapExcept f l = .ok l := by
  induction l with
  | nil => rfl
  | cons a as ih =>
    simp only [mapExcept]
    rw [h a (List.mem_cons_self a as), ih (fun b hb => h b (List.mem_cons_of_mem a hb))]
    rfl

theorem mem_setCol (df : DataFrame) (n : String) (c : Column) (p : String × Column)
    (hp : p ∈ setCol df n c) : ∃ q ∈ df, p = if q.1 = n then (q.1, c) else q := by
  induction df with
  | nil => cases hp
  | cons a as ih =>
    simp only [setCol] at hp
    rcases List.mem_cons.mp hp with h | h
    · exact ⟨a, List.mem_cons_self a as, h⟩
    · obtain ⟨q, hq, hpq⟩ := ih h
      exact ⟨q, List.mem_cons_of_mem a hq, hpq⟩

theorem mem_setCol_fst (df : DataFrame) (n : String) (c : Column) (p : String × Column)
    (hp : p ∈ setCol df n c) : ∃ q ∈ df, p.1 = q.1 := by
  obtain ⟨q, hq, hpq⟩ := mem_setCol df n c p hp
  refine ⟨q, hq, ?_⟩
  by_cases h : q.1 = n
  · rw [if_pos h] at hpq
    rw [hpq]
  · rw [if_neg h] at hpq
    rw [hpq]

theorem mem_setCol_val (df : DataFrame) (n : String) (c : Column) (p : String × Column)
    (hp : p ∈ setCol df n c) (hn : p.1 = n) : p.2 = c := by
  obtain ⟨q, hq, hpq⟩ := mem_setCol df n c p hp
  by_cases h : q.1 = n
  · rw [if_pos h] at hpq
    rw [hpq]
  · rw [if_neg h] at hpq
    rw [hpq] at hn
    exact absurd hn h

theorem mem_setCol_of_ne (df : DataFrame) (n : String) (c : Column) (p : String × Column)
    (hp : p ∈ setCol df n c) (hn : p.1 ≠ n) : p ∈ df := by
  obtain ⟨q, hq, hqeq⟩ := mem_setCol df n c p hp
  by_cases h : q.1 = n
  · rw [if_pos h] at hqeq
    rw [hqeq] at hn
    exact absurd h hn
  · rw [if_neg h] at hqeq
    rw [hqeq]
    exact hq

theorem lookupCol_setCol_self (df : DataFrame) (n : String) (c c₀ : Column)
    (h : lookupCol df n = some c₀) : lookupCol (setCol df n c) n = some c := by
  induction df with
  | nil => cases h
  | cons a as ih =>
    obtain ⟨a1, a2⟩ := a
    by_cases ha : a1 = n
    · simp [setCol, lookupCol, ha]
    · simp only [setCol, lookupCol, if_neg ha] at h ⊢
      exact ih h

theorem lookupCol_setCol_ne (df : DataFrame) (n m : String) (c : Column) (h : m ≠ n) :
    lookupCol (setCol df n c) m = lookupCol df m := by
  induction df with
  | nil => rfl
  | cons a as ih =>
    obtain ⟨a1, a2⟩ := a
    by_cases ha : a1 = n
    · have ham : ¬(a1 = m) := fun he => h (by rw [← he, ha])
      simp only [setCol, lookupCol, if_pos ha, if_neg ham]
      exact ih
    · by_cases ham : a1 = m
      · simp [setCol, lookupCol, ha, ham, h]
      · simp only [setCol, lookupCol, if_neg ha, if_neg ham]
        exact ih

theorem setCol_self (df : DataFrame) (n : String) (c : Column)
    (h : ∀ p ∈ df, p.1 = n → p.2 = c) : setCol df n c = df := by
  induction df with
  | nil => rfl
  | cons a as ih =>
    obtain ⟨a1, a2⟩ := a
    simp only [setCol]
    rw [ih (fun p hp => h p (List.mem_cons_of_mem _ hp))]
    by_cases ha : a1 = n
    · rw [if_pos ha, ← h (a1, a2) (List.mem_cons_self _ _) ha]
    · rw [if_neg ha]

theorem to_datetime_isDt (parse : Cell → Int) (u : Bool) (c : Column) :
    ∃ l, to_datetime parse u c = .dt l := by
  cases c with
  | obj cells => exact ⟨_, rfl⟩
  | nint cells => exact ⟨_, rfl⟩
  | dt cells => exact ⟨_, rfl⟩
  | num cells =>
    cases u with
    | false => exact ⟨_, rfl⟩
    | true => exact ⟨cells, rfl⟩

/-- Evaluation rule for `_clean_columns` once the two date columns are
known to be present. -/
theorem clean_columns_eq (parse : Cell → Int) (df : DataFrame) (pc sc : Column)
    (hpc : lookupCol df "videoExactPublishDate" = some pc)
    (hsc : lookupCol (setCol df "videoExactPublishDate" (to_datetime parse false pc))
      "scanTimeStamp" = some sc) :
    clean_columns parse df =
      mapExcept cleanNumericCol
        (setCol (setCol df "videoExactPublishDate" (to_datetime parse false pc))
          "scanTimeStamp" (to_datetime parse true sc)) := by
  unfold clean_columns
  simp only [hpc, hsc]

/-- C2 counterexample.  The claim says applying the normalizer twice never
raises and equals applying it once; re-applying it to a table with a
count-like column raises, because `_parse_numeric_column` uses the `.str`
accessor on the now-`Int64` column. -/
theorem c2_counterexample :
    clean_columns c2CexParse c2CexTable = .ok c2CexCleaned ∧
    clean_columns c2CexParse c2CexCleaned =
      .error "Can only use .str accessor with string values!" := by
  constructor
  · have hcell : parseNumericCell (.str "1.2K") = some 1200 := by
      have hs : searchNumber (normalizeNumericString "1.2K").data =
          some (['1'], ['2'], some 'k', []) := by decide
      simp only [parseNumericCell, String.toList, hs]
      have d1 : digitsToNat ['1'] = 1 := rfl
      have d2 : digitsToNat ['2'] = 2 := rfl
      rw [numberValue, d1, d2, suffixMultiplier]
      norm_num
    have hnum : parseNumericColumnOf (.obj [.str "1.2K"]) = .ok (.nint [some 1200]) := by
      simp only [parseNumericColumnOf, parseNumericCells, List.map, hcell, castInt64]
      norm_num
      rfl
    have hclean : cleanNumericCol ("numberLikes", Column.obj [.str "1.2K"]) =
        .ok ("numberLikes", Column.nint [some 1200]) := by
      simp only [cleanNumericCol, show isCountLike "numberLikes" = true from rfl, if_true, hnum]
      rfl
    rw [clean_columns_eq c2CexParse c2CexTable (.obj [.str "2022-01-01 12:00:00"])
      (.num [1641062400]) (by decide) (by decide)]
    show mapExcept cleanNumericCol
      [ ("videoExactPublishDate", Column.dt [1641038400]),
        ("scanTimeStamp", Column.dt [1641062400]),
        ("numberLikes", Column.obj [.str "1.2K"]) ] = .ok c2CexCleaned
    simp only [mapExcept,
      show cleanNumericCol ("videoExactPublishDate", Column.dt [1641038400]) =
        .ok ("videoExactPublishDate", Column.dt [1641038400]) from rfl,
      show cleanNumericCol ("scanTimeStamp", Column.dt [1641062400]) =
        .ok ("scanTimeStamp", Column.dt [1641062400]) from rfl,
      hclean]
    rfl
  · rw [clean_columns_eq c2CexParse c2CexCleaned (.dt [1641038400]) (.dt [1641062400])
      (by decide) (by decide)]
    rfl

/-- C2 (amended): the normalizer is idempotent on its date columns — once
a table has been normalized, normalizing it again re-parses the instant
columns as a no-op — and hence idempotent on every table without
count-like columns; but re-applying it to a table with a count-like column
raises, because the numeric parser's string accessor rejects the
already-integer column. -/
theorem c2_clean_columns_idempotent (parse : Cell → Int) (df df1 : DataFrame)
    (hno : ∀ p ∈ df, isCountLike p.1 = false)
    (h1 : clean_columns parse df = .ok df1) :
    clean_columns parse df1 = .ok df1 := by
  unfold clean_columns at h1
  rcases hpc : lookupCol df "videoExactPublishDate" with _ | pc
  · simp only [hpc] at h1
    exact Except.noConfusion h1
  simp only [hpc] at h1
  rcases hsc : lookupCol (setCol df "videoExactPublishDate" (to_datetime parse false pc))
      "scanTimeStamp" with _ | sc
  · simp only [hsc] at h1
    exact Except.noConfusion h1
  simp only [hsc] at h1
  have hnoB : ∀ p ∈ setCol (setCol df "videoExactPublishDate" (to_datetime parse false pc))
      "scanTimeStamp" (to_datetime parse true sc), isCountLike p.1 = false := by
    intro p hp
    obtain ⟨q, hq, hq1⟩ := mem_setCol_fst _ _ _ p hp
    obtain ⟨q0, hq0, hq01⟩ := mem_setCol_fst _ _ _ q hq
    rw [hq1, hq01]
    exact hno q0 hq0
  have hmapB : mapExcept cleanNumericCol
      (setCol (setCol df "videoExactPublishDate" (to_datetime parse false pc))
        "scanTimeStamp" (to_datetime parse true sc)) =
      .ok (setCol (setCol df "videoExactPublishDate" (to_datetime parse false pc))
        "scanTimeStamp" (to_datetime parse true sc)) := by
    apply mapExcept_ok_id
    intro p hp
    rw [cleanNumericCol, if_neg (by simp [hnoB p hp])]
  rw [hmapB] at h1
  obtain rfl : df1 = setCol (setCol df "videoExactPublishDate" (to_datetime parse false pc))
      "scanTimeStamp" (to_datetime parse true sc) := (Except.ok.inj h1).symm
  obtain ⟨lp, hlp⟩ := to_datetime_isDt parse false pc
  obtain ⟨ls, hls⟩ := to_datetime_isDt parse true sc
  have hne : "videoExactPublishDate" ≠ "scanTimeStamp" := by decide
  have hpub1 : lookupCol (setCol (setCol df "videoExactPublishDate" (to_datetime parse false pc))
      "scanTimeStamp" (to_datetime parse true sc)) "videoExactPublishDate" =
      some (to_datetime parse false pc) := by
    rw [lookupCol_setCol_ne _ _ _ _ hne]
    exact lookupCol_setCol_self df _ _ pc hpc
  have hfix1 : to_datetime parse false (to_datetime parse false pc) =
      to_datetime parse false pc := by
    rw [hlp]
    rfl
  have hset1 : setCol (setCol (setCol df "videoExactPublishDate" (to_datetime parse false pc))
      "scanTimeStamp" (to_datetime parse true sc)) "videoExactPublishDate"
      (to_datetime parse false pc) =
      setCol (setCol df "videoExactPublishDate" (to_datetime parse false pc))
        "scanTimeStamp" (to_datetime parse true sc) := by
    apply setCol_self
    intro p hp hp1
    have hpn : p.1 ≠ "scanTimeStamp" := by rw [hp1]; exact hne
    exact mem_setCol_val df _ _ p (mem_setCol_of_ne _ _ _ p hp hpn) hp1
  have hscan1 : lookupCol (setCol (setCol df "videoExactPublishDate"
      (to_datetime parse false pc)) "scanTimeStamp" (to_datetime parse true sc))
      "scanTimeStamp" = some (to_datetime parse true sc) :=
    lookupCol_setCol_self _ _ _ sc hsc
  have hfix2 : to_datetime parse true (to_datetime parse true sc) =
      to_datetime parse true sc := by
    rw [hls]
    rfl
  have hset2 : setCol (setCol (setCol df "videoExactPublishDate" (to_datetime parse false pc))
      "scanTimeStamp" (to_datetime parse true sc)) "scanTimeStamp"
      (to_datetime parse true sc) =
      setCol (setCol df "videoExactPublishDate" (to_datetime parse false pc))
        "scanTimeStamp" (to_datetime parse true sc) := by
    apply setCol_self
    intro p hp hp1
    exact mem_setCol_val _ _ _ p hp hp1
  rw [clean_columns_eq parse _ (to_datetime parse false pc) (to_datetime parse true sc) hpub1
    (by rw [hfix1, hset1]; exact hscan1)]
  rw [hfix1, hset1, hfix2, hset2]
  exact hmapB

/-- C2 witness: on a table without count-like columns a second
normalization pass returns its input unchanged. -/
theorem c2_clean_columns_idempotent_witness :
    clean_columns c2CexParse c2IdemCleaned = .ok c2IdemCleaned :=
  c2_clean_columns_idempotent c2CexParse c2IdemTable c2IdemCleaned (by decide) (by rfl)

/-! ## C9: GroupSurvivalEstimator -/

theorem kmfExtras_censored (minFrac : ℚ) (filtered : List TrainRow) :
    List.countP (fun p : ℚ × Bool => !p.2) (kmfExtras minFrac filtered) =
      kmfNeeded minFrac filtered := by
  rw [show kmfNeeded minFrac filtered =
      (kmfExtras minFrac filtered).length from by
    rw [kmfExtras, List.length_map, List.length_range]]
  apply List.countP_eq_length.mpr
  intro x hx
  obtain ⟨i, _, hxi⟩ := List.mem_map.mp hx
  rcases hget : filtered.get? (i % filtered.length) with _ | r
  · rw [hget] at hxi
    rw [← hxi]
    rfl
  · rw [hget] at hxi
    rw [← hxi]
    rfl

/-- C9 (spec-modelled): a day or category label not present in the
training table's observed value sets fails with an error naming the valid
options; on a successful call, the censored count of the (duration, event)
set the estimator is fitted on is at least `minFrac` (default 5%) times
the filtered set's size. -/
theorem c9_group_estimator (day videoCat : String) (minFrac : ℚ) (full_df : List TrainRow) :
    ((((full_df.map (fun r => r.dayOfWeek)).dedup).contains (titleCase day) = false ∨
        ((full_df.map (fun r => r.videoCategory)).dedup).contains (titleCase videoCat) = false) →
      kmf_model_per_day_and_video_cat day videoCat minFrac full_df =
        .error ("Invalid group: day must be one of " ++
          toString ((full_df.map (fun r => r.dayOfWeek)).dedup) ++
          " and category must be one of " ++
          toString ((full_df.map (fun r => r.videoCategory)).dedup))) ∧
    (∀ label fitData,
      kmf_model_per_day_and_video_cat day videoCat minFrac full_df = .ok (label, fitData) →
      minFrac * ((kmfFilteredSet day videoCat full_df).length : ℚ) ≤
        (fitData.countP (fun p => !p.2) : ℚ)) := by
  constructor
  · intro h
    have hcond : (!(((full_df.map (fun r => r.dayOfWeek)).dedup).contains (titleCase day)) ||
        !(((full_df.map (fun r => r.videoCategory)).dedup).contains (titleCase videoCat))) =
          true := by
      rcases h with h | h
      · simp only [h, Bool.not_false, Bool.true_or]
      · simp only [h, Bool.not_false, Bool.or_true]
    rw [kmf_model_per_day_and_video_cat, if_pos hcond]
  · intro label fitData hok
    rw [kmf_model_per_day_and_video_cat] at hok
    split at hok
    · exact Except.noConfusion hok
    · have hpair := Except.ok.inj hok
      rw [Prod.mk.injEq] at hpair
      obtain ⟨hl, hf⟩ := hpair
      subst hf
      rw [List.countP_append, kmfExtras_censored]
      have hmap : List.countP (fun p : ℚ × Bool => !p.2)
          ((kmfFilteredSet day videoCat full_df).map
            (fun r => (r.videoLengthDays, r.isTrend))) =
          List.countP (fun r => !r.isTrend) (kmfFilteredSet day videoCat full_df) := by
        rw [List.countP_map]
        rfl
      rw [hmap]
      have hceil : minFrac * ((kmfFilteredSet day videoCat full_df).length : ℚ) ≤
          ((⌈minFrac * ((kmfFilteredSet day videoCat full_df).length : ℚ)⌉ : ℤ) : ℚ) :=
        Int.le_ceil _
      have hcast : ((⌈minFrac * ((kmfFilteredSet day videoCat full_df).length : ℚ)⌉ : ℤ) : ℚ) ≤
          ((List.countP (fun r => !r.isTrend) (kmfFilteredSet day videoCat full_df) +
            kmfNeeded minFrac (kmfFilteredSet day videoCat full_df) : ℕ) : ℚ) := by
      -- the censored count plus the appended duplicates reaches the ceiling
        have hint : (⌈minFrac * ((kmfFilteredSet day videoCat full_df).length : ℚ)⌉ : ℤ) ≤
            ((List.countP (fun r => !r.isTrend) (kmfFilteredSet day videoCat full_df) +
              kmfNeeded minFrac (kmfFilteredSet day videoCat full_df) : ℕ) : ℤ) := by
          rw [kmfNeeded]
          omega
        exact_mod_cast hint
      exact hceil.trans hcast

/-- C9 witness: the repository test's (Monday, Comedy) table — censored
count 2 of 5 already exceeds the 5% target, so the fitted set is the
filtered set itself. -/
theorem c9_group_estimator_witness :
    (1/20 : ℚ) * ((kmfFilteredSet "Monday" "Comedy" kmfDemoTable).length : ℚ) ≤
      ((([((1 : ℚ), false), (2, true), (3, true), (4, false), (5, true)] :
        List (ℚ × Bool)).countP (fun p => !p.2) : ℕ) : ℚ) := by
  have hF : kmfFilteredSet "Monday" "Comedy" kmfDemoTable = kmfDemoTable := by decide
  have hceil : (⌈(1/20 : ℚ) * ((kmfDemoTable.length : ℕ) : ℚ)⌉ : ℤ) = 1 := by
    rw [show ((kmfDemoTable.length : ℕ) : ℚ) = 5 by norm_num [kmfDemoTable]]
    rw [Int.ceil_eq_iff]
    norm_num
  have hneed : kmfNeeded (1/20) (kmfFilteredSet "Monday" "Comedy" kmfDemoTable) = 0 := by
    rw [kmfNeeded, hF, hceil, show List.countP (fun r => !r.isTrend) kmfDemoTable = 2 by decide]
    rfl
  have hok : kmf_model_per_day_and_video_cat "Monday" "Comedy" (1/20) kmfDemoTable =
      .ok ("Monday", [((1 : ℚ), false), (2, true), (3, true), (4, false), (5, true)]) := by
    rw [kmf_model_per_day_and_video_cat, if_neg (by decide)]
    rw [kmfExtras, hneed]
    rw [hF, show kmfGroupLabel "Monday" "Comedy" kmfDemoTable = "Monday" by decide]
    rfl
  exact (c9_group_estimator "Monday" "Comedy" (1/20) kmfDemoTable).2 "Monday" _ hok

/-! ## C10: TrendCurveGenerator -/

end YouTrend
